import Mathlib

/-!
Verification development for the HTML content editor core
(`html_editor.py`): text-node addressing and patching, the
status-conditional subsystem, and image extraction/replacement.

Documents are modelled as parsed trees (the external HTML
parser/serializer is a boundary capability per the specification); pure
string manipulation (whitespace normalisation, the template-marker
regular expressions, the CSS `url(...)` scanner, base64) is embedded
directly from the source.
-/

namespace HtmlEditor

/-- Python `\s` over the ASCII range: space, tab, newline, carriage
return, form feed, vertical tab. -/
def isWs (c : Char) : Bool :=
  c = ' ' || c = '\t' || c = '\n' || c = '\x0d' || c = '\x0c' || c = '\x0b'

/-- Python `str.strip()` on a character list: drop whitespace from both
ends. -/
def stripChars (l : List Char) : List Char :=
  ((l.dropWhile isWs).reverse.dropWhile isWs).reverse

/-- Python `str.strip()`. -/
def pyStrip (s : String) : String :=
  String.mk (stripChars s.data)

/-- Collapse runs of spaces to a single space (the effect of
`WS_RE.sub(" ", s)` after every whitespace character has been mapped to
a space). -/
def squeeze : List Char → List Char
  | [] => []
  | [c] => [c]
  | a :: b :: t => if a = ' ' && b = ' ' then squeeze (b :: t) else a :: squeeze (b :: t)

/-- `norm(s)`: collapse every whitespace run to one space and strip the
ends (`WS_RE.sub(" ", s or "").strip()`). -/
def norm (s : String) : String :=
  String.mk (stripChars (squeeze (s.data.map (fun c => if isWs c then ' ' else c))))

/-- Python `str.split(sep, maxsplit)` restricted to a one-character
separator: split on at most `n` occurrences of `sep`. -/
def splitMax (sep : Char) : Nat → List Char → List String
  | 0, cs => [String.mk cs]
  | n + 1, cs =>
    match cs.findIdx? (· = sep) with
    | none => [String.mk cs]
    | some i => String.mk (cs.take i) :: splitMax sep n (cs.drop (i + 1))

/-- `k.split(sep, n)` as used on address keys. -/
def pySplit (s : String) (sep : Char) (n : Nat) : List String :=
  splitMax sep n s.data

/-- Digit run of a Python integer literal body: digits possibly
separated by single underscores (`int("1_0") = 10`). -/
def pyDigits : List Char → Option Nat
  | [] => none
  | cs => go cs true 0
where
  go : List Char → Bool → Nat → Option Nat
    | [], first, acc => if first then none else some acc
    | c :: t, first, acc =>
      if c.isDigit then go t false (acc * 10 + (c.toNat - 48))
      else if c = '_' then
        -- an underscore must sit between two digits
        if first then none
        else match t with
          | d :: t2 => if d.isDigit then go t2 false (acc * 10 + (d.toNat - 48)) else none
          | [] => none
      else none

/-- Model of Python `int(str)`: optional surrounding whitespace, an
optional sign, then digits (single underscores allowed between digits);
`none` models the `ValueError` the source catches. -/
def pyInt (s : String) : Option Int :=
  match stripChars s.data with
  | '+' :: t => (pyDigits t).map (fun n => (n : Int))
  | '-' :: t => (pyDigits t).map (fun n => -(n : Int))
  | t => (pyDigits t).map (fun n => (n : Int))

/-- First index at which `pat` occurs as a sublist of `l`. -/
def findSubIdx (pat : List Char) : List Char → Option Nat
  | [] => if pat = [] then some 0 else none
  | c :: t =>
    if pat.isPrefixOf (c :: t) then some 0
    else (findSubIdx pat t).map (· + 1)

/-- Python `str.replace(old, new, 1)`: replace the first occurrence of
`old` (assumed non-empty by every caller) by `new`. -/
def replaceFirst (s old new : String) : String :=
  match findSubIdx old.data s.data with
  | none => s
  | some i => String.mk (s.data.take i ++ new.data ++ s.data.drop (i + old.data.length))

/-- Python `in` on strings: substring test. -/
def containsSub (hay needle : String) : Bool :=
  (findSubIdx needle.data hay.data).isSome

/-- `re.sub(r"\s+", "", s)`: delete every whitespace character. -/
def removeWs (s : String) : String :=
  String.mk (s.data.filter (fun c => !isWs c))

/-- ASCII lower-casing used for the case-insensitive regexes. -/
def lowChar (c : Char) : Char :=
  if 'A' ≤ c && c ≤ 'Z' then Char.ofNat (c.toNat + 32) else c

/-- Lower-case a string (ASCII), modelling `str.lower()`. -/
def lowStr (s : String) : String :=
  String.mk (s.data.map lowChar)

/-- Case-insensitive literal prefix test. -/
def isPrefixCI (pat : List Char) (l : List Char) : Bool :=
  match pat, l with
  | [], _ => true
  | _ :: _, [] => false
  | p :: pt, c :: ct => lowChar p = lowChar c && isPrefixCI pt ct

end HtmlEditor

namespace HtmlEditor

/-! ## The template-marker regular expression
`JINJA_RE = ({{.*?}}|{%.+?%})` with `re.DOTALL`, used by `has_jinja`
(`re.search`) and `strip_jinja` (`re.sub` of every match with `""`).
The scan below reproduces the engine's left-to-right scan with
non-greedy bodies: an expression marker ends at the first later
close pair, a statement marker needs at least one body character. -/

/-- First index `i` of `l` with `l[i] = a` and `l[i+1] = b`. -/
def findPairIdx (a b : Char) : List Char → Option Nat
  | x :: y :: t =>
    if x = a && y = b then some 0
    else (findPairIdx a b (y :: t)).map (· + 1)
  | _ => none

/-- One attempted match of `JINJA_RE` at the head of `l`: on success,
the number of characters the match consumes. -/
def jinjaMatchLen (l : List Char) : Option Nat :=
  match l with
  | '{' :: '{' :: rest =>
    -- `{{.*?}}`: 2 + minimal body + 2
    (findPairIdx '}' '}' rest).map (fun k => k + 4)
  | '{' :: '%' :: rest =>
    -- `{%.+?%}`: the body has at least one character
    match rest with
    | [] => none
    | _ :: rest2 => (findPairIdx '%' '}' rest2).map (fun k => k + 5)
  | _ => none

/-- `re.search(JINJA_RE, s)`: scan left to right for any match. -/
def jinjaSearch : List Char → Bool
  | [] => false
  | c :: t =>
    match jinjaMatchLen (c :: t) with
    | some _ => true
    | none => jinjaSearch t

/-- `re.sub(JINJA_RE, "", s)` (fuelled; every step shortens the list,
so any fuel above the length is exact): remove every (non-overlapping,
left-to-right) match; at a position with no match the scan advances by
one character. -/
def jinjaSubF : Nat → List Char → List Char
  | 0, l => l
  | fuel + 1, l =>
    match l with
    | [] => []
    | '{' :: '{' :: rest =>
      match findPairIdx '}' '}' rest with
      | some k => jinjaSubF fuel (rest.drop (k + 2))
      | none => '{' :: jinjaSubF fuel ('{' :: rest)
    | '{' :: '%' :: rest =>
      match rest with
      | [] => ['{', '%']
      | x :: rest2 =>
        match findPairIdx '%' '}' rest2 with
        | some k => jinjaSubF fuel (rest2.drop (k + 2))
        | none => '{' :: jinjaSubF fuel ('%' :: x :: rest2)
    | c :: t => c :: jinjaSubF fuel t

/-- `re.sub(JINJA_RE, "", s)`. -/
def jinjaSub (l : List Char) : List Char :=
  jinjaSubF (l.length + 1) l

/-- `has_jinja(s)`. -/
def has_jinja (s : String) : Bool :=
  jinjaSearch s.data

/-- `strip_jinja(s)`: remove the markers, then normalise. -/
def strip_jinja (s : String) : String :=
  norm (String.mk (jinjaSub s.data))

end HtmlEditor

namespace HtmlEditor

/-! ## The document model
The external HTML parser/serializer is a boundary capability (spec §6).
A parsed document is a tree of elements and text runs; the attributes
the core reads (`class`, `style`, `src`) are modelled explicitly.
Adjacent text runs are distinct children only where the parser would
keep them distinct; a leaf holding one text run models a tag whose
`.string` is that run. -/

/-- A parsed HTML node: an element with its name, class list, optional
`style` and `src` attributes and children, or a text run. -/
inductive Node where
  | elem (name : String) (classes : List String) (style : Option String)
      (src : Option String) (children : List Node)
  | text (s : String)
deriving Repr

/-- Element name (`tag.name`); `""` for a text run. -/
def nameOf : Node → String
  | .elem n _ _ _ _ => n
  | .text _ => ""

/-- Class list (`tag.get("class", [])`). -/
def classesOf : Node → List String
  | .elem _ c _ _ _ => c
  | .text _ => []

/-- `" ".join(tag.get("class", []))`. -/
def classStr (n : Node) : String :=
  String.intercalate " " (classesOf n)

/-- The raw `style` attribute, if present. -/
def styleAttr : Node → Option String
  | .elem _ _ st _ _ => st
  | .text _ => none

/-- `tag.get("style") or ""`. -/
def styleVal (n : Node) : String :=
  (styleAttr n).getD ""

/-- The raw `src` attribute, if present. -/
def srcAttr : Node → Option String
  | .elem _ _ _ sr _ => sr
  | .text _ => none

/-- `img.get("src") or ""`. -/
def srcVal (n : Node) : String :=
  (srcAttr n).getD ""

/-- Children of an element. -/
def childrenOf : Node → List Node
  | .elem _ _ _ _ ch => ch
  | .text _ => []

/-- A position in the tree: the list of child indices from the root. -/
abbrev Path := List Nat

mutual

/-- Every element of the tree in document (pre-)order, paired with its
path: the model of the tree adapter's ordered `find_all` query. -/
def elemsPre : Node → List (Path × Node)
  | .text _ => []
  | .elem n c st sr ch => ([], .elem n c st sr ch) :: elemsPreList ch 0

/-- Elements of a child list in document order, paths prefixed by the
child index. -/
def elemsPreList : List Node → Nat → List (Path × Node)
  | [], _ => []
  | x :: xs, i =>
    ((elemsPre x).map (fun pn => (i :: pn.1, pn.2))) ++ elemsPreList xs (i + 1)

end

mutual

/-- `get_text()` of a node: concatenation of every text run below it. -/
def getText : Node → String
  | .text s => s
  | .elem _ _ _ _ ch => getTextList ch

/-- `get_text()` over a child list. -/
def getTextList : List Node → String
  | [] => ""
  | x :: xs => getText x ++ getTextList xs

end

mutual

/-- All text runs below a list of nodes, in document order (the strings
`get_text(sep, strip=True)` walks over). -/
def textRuns : Node → List String
  | .text s => [s]
  | .elem _ _ _ _ ch => textRunsList ch

/-- `textRuns` over a child list. -/
def textRunsList : List Node → List String
  | [] => []
  | x :: xs => textRuns x ++ textRunsList xs

end

/-- `get_text(" ", strip=True)` over a fragment: strip each text run,
drop the empty ones, join with a single space. -/
def getTextSpaceStrip (l : List Node) : String :=
  String.intercalate " " (((textRunsList l).map pyStrip).filter (· ≠ ""))

/-- The tags whose subtrees the extractor removes before scanning
(`SKIP_TAGS`). -/
def SKIP_TAGS : List String := ["style", "script", "svg", "head"]

/-- The tag names eligible to hold plain addressable text
(`CANDIDATE_TAGS`). -/
def CANDIDATE_TAGS : List String := ["h1", "h2", "h3", "p", "span", "div"]

/-- The fixed status vocabulary (`STATUSES`). -/
def STATUSES : List String := ["Platinum", "Gold", "Silver", "Bronze"]

/-- Does this node root a skip subtree? -/
def isSkipElem (n : Node) : Bool :=
  match n with
  | .elem nm _ _ _ _ => SKIP_TAGS.contains nm
  | .text _ => false

mutual

/-- Remove every skip-tag subtree strictly below the node: the effect of
`for bad in soup.find_all(list(SKIP_TAGS)): bad.decompose()` on the
descendants of the root. -/
def decomposeSkip : Node → Node
  | .text s => .text s
  | .elem n c st sr ch => .elem n c st sr (decomposeSkipList ch)

/-- `decomposeSkip` over a child list, dropping skip-rooted children. -/
def decomposeSkipList : List Node → List Node
  | [] => []
  | x :: xs =>
    if isSkipElem x then decomposeSkipList xs
    else decomposeSkip x :: decomposeSkipList xs

end

/-- `decompose` including the root: a document whose root is itself a
skip tag is removed entirely. -/
def decomposeTop (d : Node) : Option Node :=
  if isSkipElem d then none else some (decomposeSkip d)

/-- Read the single text run of a leaf element (`tag.string` when the
tag has no element children and exactly one text child). -/
def leafText : Node → Option String
  | .elem _ _ _ _ [.text s] => some s
  | _ => none

/-- Navigate to the node at a path. -/
def nodeAt : Node → Path → Option Node
  | n, [] => some n
  | .text _, _ :: _ => none
  | .elem _ _ _ _ ch, i :: p =>
    match ch.get? i with
    | some c => nodeAt c p
    | none => none

/-- Rewrite the node at a path with `f`; identity on a dangling path. -/
def modifyAt (f : Node → Node) : Node → Path → Node
  | n, [] => f n
  | .text s, _ :: _ => .text s
  | .elem n c st sr ch, i :: p =>
    match ch.get? i with
    | some child => .elem n c st sr (ch.set i (modifyAt f child p))
    | none => .elem n c st sr ch

/-- `t.string = s`: replace the element's contents by one text run. -/
def setTextAt (d : Node) (p : Path) (s : String) : Node :=
  modifyAt (fun n =>
    match n with
    | .elem nm c st sr _ => .elem nm c st sr [.text s]
    | .text t0 => .text t0) d p

/-- Replace the element's children wholesale (`p.clear(); p.append(...)`). -/
def setChildrenAt (d : Node) (p : Path) (ch : List Node) : Node :=
  modifyAt (fun n =>
    match n with
    | .elem nm c st sr _ => .elem nm c st sr ch
    | .text t0 => .text t0) d p

/-- `tag["style"] = s`. -/
def setStyleAt (d : Node) (p : Path) (s : String) : Node :=
  modifyAt (fun n =>
    match n with
    | .elem nm c _ sr ch => .elem nm c (some s) sr ch
    | .text t0 => .text t0) d p

/-- `img["src"] = s`. -/
def setSrcAt (d : Node) (p : Path) (s : String) : Node :=
  modifyAt (fun n =>
    match n with
    | .elem nm c st _ ch => .elem nm c st (some s) ch
    | .text t0 => .text t0) d p

/-- `str(t.string) if t.string else ""` at a path: the current text run
of a leaf element, `""` when absent or empty. -/
def getStringAt (d : Node) (p : Path) : String :=
  match nodeAt d p with
  | some n => (leafText n).getD ""
  | none => ""

end HtmlEditor

namespace HtmlEditor

/-! ## Serialisation (boundary capability)
`str(soup)` / `decode_contents()` with the parser's minimal formatter:
`&`, `<`, `>` escaped in text, `&` and `"` in attribute values. -/

/-- Escape one text character. -/
def escChar (c : Char) : String :=
  if c = '&' then "&amp;" else if c = '<' then "&lt;"
  else if c = '>' then "&gt;" else String.mk [c]

/-- Escape a text run for serialisation. -/
def escapeText (s : String) : String :=
  String.join (s.data.map escChar)

/-- Escape one attribute-value character. -/
def escAttrChar (c : Char) : String :=
  if c = '&' then "&amp;" else if c = '"' then "&quot;" else String.mk [c]

/-- Escape an attribute value. -/
def escapeAttr (s : String) : String :=
  String.join (s.data.map escAttrChar)

/-- Render the modelled attributes of an element. -/
def attrsStr (cls : List String) (st sr : Option String) : String :=
  (if cls.isEmpty then "" else " class=\"" ++ escapeAttr (String.intercalate " " cls) ++ "\"")
    ++ (match st with
        | some v => " style=\"" ++ escapeAttr v ++ "\""
        | none => "")
    ++ (match sr with
        | some v => " src=\"" ++ escapeAttr v ++ "\""
        | none => "")

/-- Tags the serializer renders self-closed. -/
def VOID_TAGS : List String := ["img", "br", "hr", "meta", "link", "input"]

mutual

/-- Serialise a node (`str(soup)` on a one-root document). -/
def serializeNode : Node → String
  | .text s => escapeText s
  | .elem n c st sr ch =>
    if VOID_TAGS.contains n && ch.isEmpty then
      "<" ++ n ++ attrsStr c st sr ++ "/>"
    else
      "<" ++ n ++ attrsStr c st sr ++ ">" ++ serializeList ch ++ "</" ++ n ++ ">"

/-- Serialise a child list (`decode_contents()`). -/
def serializeList : List Node → String
  | [] => ""
  | x :: xs => serializeNode x ++ serializeList xs

end

/-- Undo the text escaping, fuelled (used by the fragment parser
model). -/
def unescapeCharsF : Nat → List Char → List Char
  | 0, l => l
  | fuel + 1, l =>
    match l with
    | [] => []
    | '&' :: t =>
      if ("amp;".data).isPrefixOf t then '&' :: unescapeCharsF fuel (t.drop 4)
      else if ("lt;".data).isPrefixOf t then '<' :: unescapeCharsF fuel (t.drop 3)
      else if ("gt;".data).isPrefixOf t then '>' :: unescapeCharsF fuel (t.drop 3)
      else '&' :: unescapeCharsF fuel t
    | c :: t => c :: unescapeCharsF fuel t

/-- Undo the text escaping. -/
def unescapeChars (l : List Char) : List Char :=
  unescapeCharsF (l.length + 1) l

/-- Model of the external parser on a fragment string that contains no
markup (the status-branch bodies and the patched inner content the core
re-parses are directive text, not elements): one text run. -/
def parseFragment (s : String) : List Node :=
  if s = "" then [] else [.text (String.mk (unescapeChars s.data))]

end HtmlEditor

namespace HtmlEditor

/-! ## The status-directive pattern
`{%\s*(if|elif)\s+status\s*==\s*"NAME"\s*%}\s*([\s\S]*?)(?={%\s*(elif|endif)\b)`
compiled with `re.IGNORECASE`, searched (`_extract_status_texts_from_p_status`)
and substituted once (`_apply_status_edits.replace_block`) over the
container's inner markup. The helpers below reproduce the engine's
leftmost search; the greedy `\s*` runs are deterministic because every
literal that follows one is a non-whitespace character. -/

/-- End position of a case-insensitive literal matched at `i`. -/
def matchCIAt (pat : List Char) (s : List Char) (i : Nat) : Option Nat :=
  match pat with
  | [] => some i
  | p :: pt =>
    match s.get? i with
    | some c => if lowChar p = lowChar c then matchCIAt pt s (i + 1) else none
    | none => none

/-- End of the whitespace run starting at `i` (`\s*`), fuelled: the
scan halts at the end of the list, so any fuel above the length is
exact. -/
def wsEndF : Nat → List Char → Nat → Nat
  | 0, _, i => i
  | fuel + 1, s, i =>
    match s.get? i with
    | some c => if isWs c then wsEndF fuel s (i + 1) else i
    | none => i

/-- End of the whitespace run starting at `i` (`\s*`). -/
def wsEnd (s : List Char) (i : Nat) : Nat :=
  wsEndF (s.length + 1) s i

/-- `\s+` at `i`: at least one whitespace character, then the run. -/
def ws1End (s : List Char) (i : Nat) : Option Nat :=
  match s.get? i with
  | some c => if isWs c then some (wsEnd s (i + 1)) else none
  | none => none

/-- Is `s[i]` a word character (for `\b`)? -/
def wordCharAt (s : List Char) (i : Nat) : Bool :=
  match s.get? i with
  | some c => c.isAlphanum || c = '_'
  | none => false

/-- Match the directive prefix
`{%\s*(if|elif)\s+status\s*==\s*"NAME"\s*%}\s*` at position `i`,
returning the position after its trailing whitespace run. -/
def statusDirEnd (status : String) (s : List Char) (i : Nat) : Option Nat := do
  let a ← matchCIAt ['{', '%'] s i
  let b := wsEnd s a
  let c ← (do ws1End s (← matchCIAt ['i', 'f'] s b)) <|>
          (do ws1End s (← matchCIAt ['e', 'l', 'i', 'f'] s b))
  let d ← matchCIAt ("status".data) s c
  let e := wsEnd s d
  let f ← matchCIAt ['=', '='] s e
  let g := wsEnd s f
  let h ← matchCIAt ['"'] s g
  let j ← matchCIAt status.data s h
  let k ← matchCIAt ['"'] s j
  let m := wsEnd s k
  let p ← matchCIAt ['%', '}'] s m
  pure (wsEnd s p)

/-- The lookahead `(?={%\s*(elif|endif)\b)` at position `j`. -/
def nextDirAt (s : List Char) (j : Nat) : Bool :=
  match matchCIAt ['{', '%'] s j with
  | none => false
  | some a =>
    let b := wsEnd s a
    match matchCIAt ['e', 'l', 'i', 'f'] s b with
    | some e => !wordCharAt s e
    | none =>
      match matchCIAt ['e', 'n', 'd', 'i', 'f'] s b with
      | some e => !wordCharAt s e
      | none => false

/-- Least `j` in `[i, |s|]` where the lookahead matches, fuelled. -/
def findNextDirF : Nat → List Char → Nat → Option Nat
  | 0, _, _ => none
  | fuel + 1, s, i =>
    if i > s.length then none
    else if nextDirAt s i then some i
    else if i = s.length then none
    else findNextDirF fuel s (i + 1)

/-- Least `j` in `[i, |s|]` where the lookahead matches. -/
def findNextDir (s : List Char) (i : Nat) : Option Nat :=
  findNextDirF (s.length + 2) s i

/-- Leftmost match of the whole status pattern from position `i`,
fuelled: returns (end of directive prefix, start of the next
directive), i.e. the span of the captured branch body. -/
def statusSearchFromF (status : String) : Nat → List Char → Nat → Option (Nat × Nat)
  | 0, _, _ => none
  | fuel + 1, s, i =>
    if i ≥ s.length then none
    else
      match statusDirEnd status s i with
      | some p =>
        match findNextDir s p with
        | some j => some (p, j)
        | none => statusSearchFromF status fuel s (i + 1)
      | none => statusSearchFromF status fuel s (i + 1)

/-- Leftmost match of the whole status pattern from position `i`. -/
def statusSearchFrom (status : String) (s : List Char) (i : Nat) : Option (Nat × Nat) :=
  statusSearchFromF status (s.length + 1) s i

/-- `pattern.search(inner)` for one status name. -/
def statusSearch (status : String) (s : List Char) : Option (Nat × Nat) :=
  statusSearchFrom status s 0

/-- Characters `[a, b)` of `s`. -/
def slice (s : List Char) (a b : Nat) : List Char :=
  (s.take b).drop a

end HtmlEditor

namespace HtmlEditor

/-! ## Text extraction (`extract_text_nodes` and its status helper) -/

/-- A text-node descriptor (`TextNodeRef`). -/
structure TextNodeRef where
  key : String
  display : String
  kind : String
  tag_name : String
  class_str : String
  occurrence : Nat
  original_text : String
deriving DecidableEq, Repr

/-- Assoc-list lookup (membership test plus read of a Python dict built
in insertion order). -/
def lookupA (m : List (String × String)) (k : String) : Option String :=
  (m.find? (fun p => p.1 == k)).map (·.2)

/-- `soup.find("p", class_="status")`: the first element in document
order named `p` whose class list contains `status`. -/
def pStatus (d : Node) : Option (Path × Node) :=
  ((elemsPre d).filter
    (fun pn => nameOf pn.2 == "p" && (classesOf pn.2).contains "status")).head?

/-- `_extract_status_texts_from_p_status`: for each vocabulary name,
search the container's inner markup for its branch, parse the captured
body as a fragment and keep its normalised flattened text when
non-empty. The result is ordered by the status vocabulary, like the
dict the source fills. -/
def extract_status_texts_from_p_status (d : Node) : List (String × String) :=
  match pStatus d with
  | none => []
  | some pn =>
    let inner := (serializeList (childrenOf pn.2)).data
    STATUSES.filterMap (fun st =>
      match statusSearch st inner with
      | none => none
      | some pj =>
        let block := String.mk (slice inner pj.1 pj.2)
        let text := norm (getTextSpaceStrip (parseFragment block))
        if text = "" then none else some (st, text))

/-- The extraction-time candidate test on one element: a leaf holding a
single non-empty text run whose normalised text survives (after marker
stripping when a marker is present); returns the display text. -/
def extCandidate (n : Node) : Option String :=
  match leafText n with
  | none => none
  | some raw =>
    if raw = "" then none
    else
      let text := norm raw
      if text = "" then none
      else if has_jinja text then
        let hard := strip_jinja text
        if hard = "" then none else some hard
      else some text

/-- The candidate elements `extract_text_nodes` walks, with their paths:
skip subtrees removed first, then every candidate-tag element passing
`extCandidate`, in document order. -/
def extractCandRefs (d : Node) : List (Path × Node) :=
  match decomposeTop d with
  | none => []
  | some d2 =>
    ((elemsPre d2).filter
        (fun pn => CANDIDATE_TAGS.contains (nameOf pn.2))).filter
      (fun pn => (extCandidate pn.2).isSome)

/-- The `candidates` list of the source: `(tag.name, class_str, text)`
triples in traversal order. -/
def textCandidates (d : Node) : List (String × String × String) :=
  (extractCandRefs d).map
    (fun pn => (nameOf pn.2, classStr pn.2, (extCandidate pn.2).getD ""))

/-- Fold the per-(tag, class) occurrence counters over the candidate
triples, emitting one `TextNodeRef` per candidate; `seen` carries the
pairs already counted. -/
def assignOcc : List (String × String × String) → List (String × String) → List TextNodeRef
  | [], _ => []
  | (t, c, x) :: rest, seen =>
    let occ := (seen.count (t, c)) + 1
    { key := "TEXT|" ++ t ++ "|" ++ c ++ "|" ++ toString occ
      display := x
      kind := "text"
      tag_name := t
      class_str := c
      occurrence := occ
      original_text := x } :: assignOcc rest ((t, c) :: seen)

/-- The status-kind descriptor for one vocabulary name. -/
def statusRef (st text : String) : TextNodeRef :=
  { key := "STATUS|" ++ st
    display := text
    kind := "status"
    tag_name := "p"
    class_str := "status"
    occurrence := 1
    original_text := text }

/-- `extract_text_nodes`: status texts first (kept for the tail of the
result), then the plain-candidate scan with occurrence assignment;
returns plain nodes followed by status nodes. -/
def extract_text_nodes (d : Node) : List TextNodeRef :=
  let stexts := extract_status_texts_from_p_status d
  let status_nodes := STATUSES.filterMap (fun st => (lookupA stexts st).map (statusRef st))
  let nodes := assignOcc (textCandidates d) []
  nodes ++ status_nodes

/-! ## Text patching (`apply_text_edits` and `_apply_status_edits`) -/

/-- The index-time candidate test of `apply_text_edits`: a leaf holding
a single non-empty text run with non-empty normalised text. No skip-tag
removal and no template-marker exclusion happens here. -/
def patchCandidate (n : Node) : Bool :=
  match leafText n with
  | none => false
  | some raw => raw ≠ "" && norm raw ≠ ""

/-- The candidate elements the patch index enumerates, with paths, in
document order over the unmodified tree. -/
def patchCandRefs (d : Node) : List (Path × Node) :=
  ((elemsPre d).filter
      (fun pn => CANDIDATE_TAGS.contains (nameOf pn.2))).filter
    (fun pn => patchCandidate pn.2)

/-- One group of the patch index: the paths of the candidates sharing
`(tagName, classAttributeString)`, in document order (the
`index.setdefault((tag.name, class_str), []).append(tag)` lists). -/
def patchGroup (d : Node) (t c : String) : List Path :=
  (patchCandRefs d).filterMap
    (fun pn => if nameOf pn.2 == t && classStr pn.2 == c then some pn.1 else none)

/-- Python `str.startswith(pre)`. -/
def pyStartsWith (s pre : String) : Bool :=
  pre.data.isPrefixOf s.data

/-- Apply one text-family edit against the index frozen over `orig`,
mutating `cur`: drop the edit unless the key parses and the occurrence
is in range; preserve a template tail when the current raw text carries
a marker. -/
def applyOneTextEdit (orig cur : Node) (kv : String × String) : Node :=
  if !pyStartsWith kv.1 "TEXT|" then cur
  else
    match pySplit kv.1 '|' 3 with
    | [_, tag_name, class_str, occ_s] =>
      match pyInt occ_s with
      | none => cur
      | some occ =>
        let tags := patchGroup orig tag_name class_str
        if 1 ≤ occ ∧ occ ≤ (tags.length : Int) then
          let path := tags.getD (occ - 1).toNat []
          let old_raw := getStringAt cur path
          if has_jinja old_raw then
            let old_label := strip_jinja old_raw
            if old_label ≠ "" then
              setTextAt cur path (norm kv.2 ++ replaceFirst old_raw old_label "")
            else cur
          else setTextAt cur path (norm kv.2)
        else cur
    | _ => cur

/-- Python dict assignment on an insertion-ordered assoc list. -/
def dictPut (m : List (String × String)) (k v : String) : List (String × String) :=
  if m.any (fun p => p.1 == k) then m.map (fun p => if p.1 == k then (k, v) else p)
  else m ++ [(k, v)]

/-- Collect the status-family edits (`STATUS|name ↦ norm(text)`) in
key-insertion order. -/
def collectStatusEdits (edits : List (String × String)) : List (String × String) :=
  edits.foldl
    (fun m kv =>
      if pyStartsWith kv.1 "STATUS|" then
        dictPut m (((pySplit kv.1 '|' 1).getD 1 "")) (norm kv.2)
      else m)
    []

/-- `replace_block`: substitute the first match of the status pattern,
keeping the directive prefix (group 1, trailing whitespace included)
and replacing the body span with the padded new text. -/
def replaceBlock (status newText : String) (inner : List Char) : List Char :=
  match statusSearch status inner with
  | none => inner
  | some pj =>
    inner.take pj.1 ++ ("\n                ").data ++ newText.data
      ++ ("\n                ").data ++ inner.drop pj.2

/-- `_apply_status_edits`: no-op without a status container; otherwise
rewrite the container's inner markup once per non-empty edit and
re-install the patched fragment. -/
def apply_status_edits (d : Node) (status_edits : List (String × String)) : Node :=
  match pStatus d with
  | none => d
  | some pn =>
    let inner0 := (serializeList (childrenOf pn.2)).data
    let inner := status_edits.foldl
      (fun acc se =>
        let t := norm se.2
        if t = "" then acc else replaceBlock se.1 t acc)
      inner0
    setChildrenAt d pn.1 (parseFragment (String.mk inner))

/-- `apply_text_edits`: build the frozen index over the input document,
apply every text-family edit in order, then delegate the collected
status-family edits (if any) to the status patcher. -/
def apply_text_edits (d : Node) (edits : List (String × String)) : Node :=
  let d1 := edits.foldl (fun cur kv => applyOneTextEdit d cur kv) d
  let status_edits := collectStatusEdits edits
  if status_edits.isEmpty then d1 else apply_status_edits d1 status_edits

end HtmlEditor

namespace HtmlEditor

/-! ## Images: the data-URL pattern and base64 (boundary capability) -/

/-- `DATA_URL_RE.match(src)`:
`^data:(image/(png|jpeg|jpg));base64,(.+)$` with `IGNORECASE | DOTALL`.
Returns (group 1 lower-cased, the payload group 3) on a match; each MIME
alternative must be followed by the `;base64,` literal and a non-empty
payload. -/
def dataUrlMatch (src : String) : Option (String × String) :=
  let cs := src.data
  match matchCIAt ("data:".data) cs 0 with
  | none => none
  | some a =>
    match matchCIAt ("image/".data) cs a with
    | none => none
    | some b =>
      let tryUnit : String → Option (String × String) := fun u =>
        match matchCIAt u.data cs b with
        | none => none
        | some e =>
          match matchCIAt (";base64,".data) cs e with
          | none => none
          | some f =>
            if f < cs.length then
              some (lowStr (String.mk (slice cs a e)), String.mk (cs.drop f))
            else none
      (tryUnit "png") <|> (tryUnit "jpeg") <|> (tryUnit "jpg")

/-- Value of one base64 alphabet character. -/
def b64Val (c : Char) : Option Nat :=
  if 'A' ≤ c && c ≤ 'Z' then some (c.toNat - 65)
  else if 'a' ≤ c && c ≤ 'z' then some (c.toNat - 97 + 26)
  else if '0' ≤ c && c ≤ '9' then some (c.toNat - 48 + 52)
  else if c = '+' then some 62
  else if c = '/' then some 63
  else none

/-- Decode a run of sextets (a trailing group of 2 or 3 sextets yields
1 or 2 bytes, matching stripped padding). -/
def b64Bytes : List Nat → List Nat
  | a :: b :: c :: d :: t =>
    (a * 4 + b / 16) :: ((b % 16) * 16 + c / 4) :: ((c % 4) * 64 + d) :: b64Bytes t
  | [a, b] => [a * 4 + b / 16]
  | [a, b, c] => [a * 4 + b / 16, (b % 16) * 16 + c / 4]
  | _ => []

/-- Model of the `base64.b64decode` capability's success/failure
contract: characters outside the alphabet are ignored, the data
characters before the first `=` must not number 1 mod 4, and a
non-multiple-of-4 run needs enough `=` padding; `none` models the
`binascii` error the source catches. -/
def b64decode (s : String) : Option (List Nat) :=
  let t := s.data.filter (fun c => (b64Val c).isSome || c = '=')
  let dat := (t.takeWhile (fun c => c ≠ '=')).filterMap b64Val
  let pads := (t.filter (fun c => c = '=')).length
  let r := dat.length % 4
  if r = 1 then none
  else if r = 0 then some (b64Bytes dat)
  else if 4 - r ≤ pads then some (b64Bytes dat)
  else none

/-- The external pixel-dimension probe (`PIL.Image.open(...).size`). -/
abbrev Probe := List Nat → Option (Nat × Nat)

/-- `_detect_size_from_bytes`: probe the bytes, any failure (including
an unavailable decoder) degrading to unknown dimensions. -/
def detect_size_from_bytes (probe : Probe) (b : List Nat) : Option Nat × Option Nat :=
  match probe b with
  | some wh => (some wh.1, some wh.2)
  | none => (none, none)

/-! ## The CSS background pattern
`BG_URL_RE = (?:background-image|background)\s*:\s*[^;]*url\(\s*["\']?([^"\')]+)["\']?\s*\)`
with `IGNORECASE`, used via `findall` (left-to-right non-overlapping
scan). The greedy `[^;]*` makes the engine pick the rightmost `url(`
before the next `;` whose value part matches. -/

/-- May a character be part of the captured url value (`[^"\')]`)? -/
def urlChar (c : Char) : Bool :=
  !(c = '"' || c = '\'' || c = ')')

/-- End of the maximal `[^"\')]` run starting at `i`, fuelled. -/
def urlRunEndF : Nat → List Char → Nat → Nat
  | 0, _, i => i
  | fuel + 1, s, i =>
    match s.get? i with
    | some c => if urlChar c then urlRunEndF fuel s (i + 1) else i
    | none => i

/-- End of the maximal `[^"\')]` run starting at `i`. -/
def urlRunEnd (s : List Char) (i : Nat) : Nat :=
  urlRunEndF (s.length + 1) s i

/-- End of the maximal `[^;]` run starting at `i`, fuelled. -/
def semiRunEndF : Nat → List Char → Nat → Nat
  | 0, _, i => i
  | fuel + 1, s, i =>
    match s.get? i with
    | some c => if c = ';' then i else semiRunEndF fuel s (i + 1)
    | none => i

/-- End of the maximal `[^;]` run starting at `i`. -/
def semiRunEnd (s : List Char) (i : Nat) : Nat :=
  semiRunEndF (s.length + 1) s i

/-- Match `url\(\s*["\']?([^"\')]+)["\']?\s*\)` at `j`: returns the end
of the whole match and the captured value. The optional opening quote
is consumed when present (a value cannot start with a quote), and after
the maximal value run only `)` or a closing quote followed by
whitespace and `)` can complete the match. -/
def urlTail (s : List Char) (j : Nat) : Option (Nat × List Char) :=
  match matchCIAt ['u', 'r', 'l', '('] s j with
  | none => none
  | some a =>
    let b := wsEnd s a
    let b2 :=
      match s.get? b with
      | some c => if c = '"' || c = '\'' then b + 1 else b
      | none => b
    let e1 := urlRunEnd s b2
    if e1 = b2 then none
    else
      match s.get? e1 with
      | some c =>
        if c = ')' then some (e1 + 1, slice s b2 e1)
        else
          -- a quote: optional close quote, whitespace, then `)`
          let e2 := wsEnd s (e1 + 1)
          match s.get? e2 with
          | some c2 => if c2 = ')' then some (e2 + 1, slice s b2 e1) else none
          | none => none
      | none => none

/-- Rightmost position in `[c, j]` where the url tail matches (the
backtracking of the greedy `[^;]*`), fuelled. -/
def findUrlFromBackF (s : List Char) (c : Nat) : Nat → Nat → Option (Nat × List Char)
  | 0, _ => none
  | fuel + 1, j =>
    if j < c then none
    else
      match urlTail s j with
      | some r => some r
      | none => if j = c then none else findUrlFromBackF s c fuel (j - 1)

/-- Rightmost position in `[c, j]` where the url tail matches. -/
def findUrlFromBack (s : List Char) (c : Nat) (j : Nat) : Option (Nat × List Char) :=
  findUrlFromBackF s c (j + 1) j

/-- One attempted match of `BG_URL_RE` at `i`: the keyword alternatives
in pattern order, `\s*:\s*`, then the greedy gap and url tail. -/
def bgMatchAt (s : List Char) (i : Nat) : Option (Nat × List Char) :=
  let withKw : String → Option (Nat × List Char) := fun kw =>
    match matchCIAt kw.data s i with
    | none => none
    | some a =>
      let b := wsEnd s a
      match s.get? b with
      | some c =>
        if c = ':' then
          let g := wsEnd s (b + 1)
          findUrlFromBack s g (semiRunEnd s g)
        else none
      | none => none
  (withKw "background-image") <|> (withKw "background")

/-- `BG_URL_RE.findall`, fuelled: scan left to right, resuming after
each match's end (a successful match always ends past its start, so
the `max` only serves the fuel bound). -/
def bgScanFromF (s : List Char) : Nat → Nat → List String
  | 0, _ => []
  | fuel + 1, i =>
    if s.length ≤ i then []
    else
      match bgMatchAt s i with
      | some r => String.mk r.2 :: bgScanFromF s fuel (max r.1 (i + 1))
      | none => bgScanFromF s fuel (i + 1)

/-- `BG_URL_RE.findall` from position `i`. -/
def bgScanFrom (s : List Char) (i : Nat) : List String :=
  bgScanFromF s (s.length + 1) i

/-- `BG_URL_RE.findall(style)`. -/
def bgScan (style : String) : List String :=
  bgScanFrom style.data 0

end HtmlEditor

namespace HtmlEditor

/-! ## `extract_images` and `replace_image_in_html` -/

/-- A positional image locator (`ImageLocator`). -/
structure ImageLocator where
  kind : String
  a : Int
  b : Int
deriving DecidableEq, Repr

/-- One extracted image reference (`ImageEntry`). -/
structure ImageEntry where
  img_id : String
  source : String
  mime : String
  fmt : String
  width : Option Nat
  height : Option Nat
  bytes_data : Option (List Nat)
  hint : String
  locator : ImageLocator
deriving DecidableEq, Repr

/-- `IMG%03d`. -/
def pad3 (n : Nat) : String :=
  if n < 10 then "00" ++ toString n
  else if n < 100 then "0" ++ toString n
  else toString n

/-- Build one entry from a source url string: the shared body of the
three extraction passes (data-URL classification, base64 decode with
failure degrading to an empty payload, dimension probe with failure
degrading to unknown). -/
def imageFromUrl (probe : Probe) (counter : Nat) (source : String) (u : String)
    (loc : ImageLocator) : ImageEntry :=
  let img_id := "IMG" ++ pad3 counter
  match dataUrlMatch u with
  | some mp =>
    let mime := mp.1
    let fmt := if containsSub mime "jpeg" || containsSub mime "jpg" then "jpg" else "png"
    let b64 := removeWs mp.2
    let data := (b64decode b64).getD []
    let wh :=
      if data.isEmpty then ((none : Option Nat), (none : Option Nat))
      else detect_size_from_bytes probe data
    { img_id := img_id, source := source, mime := mime, fmt := fmt,
      width := wh.1, height := wh.2, bytes_data := some data,
      hint := "(data-url)", locator := loc }
  | none =>
    { img_id := img_id, source := source, mime := "image/unknown", fmt := "?",
      width := none, height := none, bytes_data := none, hint := u, locator := loc }

/-- All `<img>` elements in document order. -/
def imgsOf (d : Node) : List (Path × Node) :=
  (elemsPre d).filter (fun pn => nameOf pn.2 == "img")

/-- All elements carrying a `style` attribute, in document order
(`soup.find_all(style=True)`). -/
def styledOf (d : Node) : List (Path × Node) :=
  (elemsPre d).filter (fun pn => (styleAttr pn.2).isSome)

/-- All `<style>` blocks in document order. -/
def styleBlocksOf (d : Node) : List (Path × Node) :=
  (elemsPre d).filter (fun pn => nameOf pn.2 == "style")

/-- Pass 1: `<img>` tags; an empty (stripped) `src` is skipped without
consuming an id, but still counts for the positional index. -/
def imgPass (probe : Probe) : List (Path × Node) → Nat → Nat → List ImageEntry × Nat
  | [], _, c => ([], c)
  | pn :: rest, idx, c =>
    let src := pyStrip (srcVal pn.2)
    if src = "" then imgPass probe rest (idx + 1) c
    else
      let c1 := c + 1
      let e := imageFromUrl probe c1 "img-tag" src ⟨"img", (idx : Int), 0⟩
      let r := imgPass probe rest (idx + 1) c1
      (e :: r.1, r.2)

/-- Entries for the url occurrences of one style string; the occurrence
index advances over every `findall` hit, stripped-empty ones included. -/
def urlEntries (probe : Probe) (kind : String) (tagIdx : Nat) :
    List String → Nat → Nat → List ImageEntry × Nat
  | [], _, c => ([], c)
  | u :: rest, mi, c =>
    let u2 := pyStrip u
    if u2 = "" then urlEntries probe kind tagIdx rest (mi + 1) c
    else
      let c1 := c + 1
      let e := imageFromUrl probe c1 "background-image" u2 ⟨kind, (tagIdx : Int), (mi : Int)⟩
      let r := urlEntries probe kind tagIdx rest (mi + 1) c1
      (e :: r.1, r.2)

/-- Pass 2: inline `style` attributes. -/
def inlinePass (probe : Probe) : List (Path × Node) → Nat → Nat → List ImageEntry × Nat
  | [], _, c => ([], c)
  | pn :: rest, ti, c =>
    let urls := bgScan (styleVal pn.2)
    let r1 := urlEntries probe "inline_style" ti urls 0 c
    let r2 := inlinePass probe rest (ti + 1) r1.2
    (r1.1 ++ r2.1, r2.2)

/-- Pass 3: `<style>` blocks, scanning their flattened text. -/
def styleBlockPass (probe : Probe) : List (Path × Node) → Nat → Nat → List ImageEntry × Nat
  | [], _, c => ([], c)
  | pn :: rest, si, c =>
    let urls := bgScan (getText pn.2)
    let r1 := urlEntries probe "style_tag" si urls 0 c
    let r2 := styleBlockPass probe rest (si + 1) r1.2
    (r1.1 ++ r2.1, r2.2)

/-- `extract_images`: the three passes share one id counter. -/
def extract_images (probe : Probe) (d : Node) : List ImageEntry :=
  let r1 := imgPass probe (imgsOf d) 0 0
  let r2 := inlinePass probe (styledOf d) 0 r1.2
  let r3 := styleBlockPass probe (styleBlocksOf d) 0 r2.2
  r1.1 ++ r2.1 ++ r3.1

/-- `replace_image_in_html`: re-derive the candidate list for the
locator's kind from the document passed to this call, range-check every
index before touching anything, and rewrite exactly the addressed
occurrence. -/
def replace_image_in_html (d : Node) (loc : ImageLocator) (new_data_url : String) :
    Except String Node :=
  if loc.kind == "img" then
    let imgs := imgsOf d
    if loc.a < 0 ∨ (imgs.length : Int) ≤ loc.a then
      .error "Не найден <img> для замены (индекс вне диапазона)."
    else
      let pn := imgs.getD loc.a.toNat ([], .text "")
      .ok (setSrcAt d pn.1 new_data_url)
  else if loc.kind == "inline_style" then
    let tags := styledOf d
    if loc.a < 0 ∨ (tags.length : Int) ≤ loc.a then
      .error "Не найден tag со style=... (индекс вне диапазона)."
    else
      let pn := tags.getD loc.a.toNat ([], .text "")
      let style := styleVal pn.2
      let urls := bgScan style
      if loc.b < 0 ∨ (urls.length : Int) ≤ loc.b then
        .error "Не найден background-image url(...) (индекс вне диапазона)."
      else
        let old_url := urls.getD loc.b.toNat ""
        .ok (setStyleAt d pn.1 (replaceFirst style old_url new_data_url))
  else if loc.kind == "style_tag" then
    let blocks := styleBlocksOf d
    if loc.a < 0 ∨ (blocks.length : Int) ≤ loc.a then
      .error "Не найден <style> (индекс вне диапазона)."
    else
      let pn := blocks.getD loc.a.toNat ([], .text "")
      let css := getText pn.2
      let urls := bgScan css
      if loc.b < 0 ∨ (urls.length : Int) ≤ loc.b then
        .error "Не найден background-image url(...) в CSS (индекс вне диапазона)."
      else
        let old_url := urls.getD loc.b.toNat ""
        .ok (setChildrenAt d pn.1 [.text (replaceFirst css old_url new_data_url)])
  else .error "Неизвестный locator.kind"

end HtmlEditor

namespace HtmlEditor

/-! ## Concrete documents used by the claim theorems -/

/-- One candidate node whose raw text is a literal label followed by a
template expression. -/
def docScore : Node :=
  .elem "div" [] none none [.elem "p" [] none none [.text "Score: \x7b\x7b value \x7d\x7d"]]

/-- One candidate node containing only a template expression. -/
def docPure : Node :=
  .elem "div" [] none none [.elem "p" [] none none [.text "\x7b\x7bx\x7d\x7d"]]

/-- One candidate node with a label before a template expression. -/
def docLabel : Node :=
  .elem "div" [] none none [.elem "p" [] none none [.text "Label \x7b\x7bx\x7d\x7d"]]

/-- The flat if/elif/endif chain of the conditional-branch claims. -/
def statusChain : String :=
  "\x7b% if status == \"Gold\" %\x7d Great job \x7b% elif status == \"Silver\" %\x7d Good job \x7b% endif %\x7d"

/-- A status container holding `statusChain`. -/
def docStatus : Node := .elem "p" ["status"] none none [.text statusChain]

/-- The container's inner markup after patching the Gold branch to
`Top`: the directive tokens and the Silver branch are byte-identical to
`statusChain`. -/
def statusChainPatched : String :=
  "\x7b% if status == \"Gold\" %\x7d \n                Top\n                \x7b% elif status == \"Silver\" %\x7d Good job \x7b% endif %\x7d"

/-- Two `<img>` tags with non-empty `src` plus one element whose inline
style holds a single background-image url. -/
def docImages : Node :=
  .elem "div" [] none none
    [.elem "img" [] none (some "a.png") [],
     .elem "img" [] none (some "b.png") [],
     .elem "div" [] (some "background-image:url(c.png)") none []]

/-- A probe that can never determine dimensions. -/
def probeNone : Probe := fun _ => none

/-- A document whose first candidate-tag node sits inside an `svg`
subtree: visible to the patch index, invisible to extraction. -/
def docSkip : Node :=
  .elem "div" [] none none
    [.elem "svg" [] none none [.elem "p" [] none none [.text "Hi"]],
     .elem "p" [] none none [.text "Hello"]]

/-- Three `<img>` tags: a data-URL with undecodable base64, a data-URL
decoding to three bytes, and an external reference. -/
def docDegrade : Node :=
  .elem "div" [] none none
    [.elem "img" [] none (some "data:image/png;base64,AAA") [],
     .elem "img" [] none (some "data:image/png;base64,AAAA") [],
     .elem "img" [] none (some "x.png") []]

/-! ## C2 — template-marker boundary in `extract_text_nodes` -/

/-- C2 counterexample: a candidate leaf whose raw text is
`Score: {{ value }}` is NOT excluded from `extract_text_nodes` — marker
stripping leaves the non-empty label `Score:`, so the node is emitted
with that display text. -/
theorem c2_score_not_excluded :
    extract_text_nodes docScore ≠ [] ∧
      extract_text_nodes docScore =
        [{ key := "TEXT|p||1", display := "Score:", kind := "text", tag_name := "p",
           class_str := "", occurrence := 1, original_text := "Score:" }] := by
  exact ⟨by decide, rfl⟩

/-- C2 (amended): a candidate leaf reading `Score: {{ value }}` is kept
with display text `Score:`; a node whose label precedes a marker keeps
its label (`Label {{x}}` → `Label`), and a node containing only a
marker (`{{x}}`) is excluded entirely. -/
theorem c2_label_boundary :
    extract_text_nodes docScore =
        [{ key := "TEXT|p||1", display := "Score:", kind := "text", tag_name := "p",
           class_str := "", occurrence := 1, original_text := "Score:" }] ∧
      extract_text_nodes docLabel =
        [{ key := "TEXT|p||1", display := "Label", kind := "text", tag_name := "p",
           class_str := "", occurrence := 1, original_text := "Label" }] ∧
      extract_text_nodes docPure = [] :=
  ⟨rfl, rfl, rfl⟩

/-! ## C3 — the empty edit set is a no-op -/

/-- C3: applying the empty edit set and re-extracting yields exactly the
descriptors of the original document: `apply_text_edits` with no edits
rebuilds its index, edits nothing, skips the status stage and returns
the document unchanged. -/
theorem c3_empty_edit_noop (d : Node) :
    extract_text_nodes (apply_text_edits d []) = extract_text_nodes d := rfl

/-- C3 witness at a concrete document. -/
theorem c3_empty_edit_noop_witness :
    extract_text_nodes (apply_text_edits docScore []) = extract_text_nodes docScore :=
  c3_empty_edit_noop docScore

/-! ## C4 — conditional branch isolation -/

set_option maxRecDepth 100000 in
/-- C4: on the flat Gold/Silver chain, extraction yields exactly the two
status entries (Gold → `Great job`, Silver → `Good job`), and patching
only the Gold branch to `Top` replaces only that branch's body span:
the Silver branch text and every directive token in the result are
byte-identical (the patched container and its serialisation are given
literally). -/
theorem c4_conditional_branch_isolation :
    (extract_text_nodes docStatus).filter (fun n => n.kind == "status") =
        [{ key := "STATUS|Gold", display := "Great job", kind := "status", tag_name := "p",
           class_str := "status", occurrence := 1, original_text := "Great job" },
         { key := "STATUS|Silver", display := "Good job", kind := "status", tag_name := "p",
           class_str := "status", occurrence := 1, original_text := "Good job" }] ∧
      apply_status_edits docStatus [("Gold", "Top")] =
        .elem "p" ["status"] none none [.text statusChainPatched] ∧
      serializeNode (apply_status_edits docStatus [("Gold", "Top")]) =
        "<p class=\"status\">" ++ statusChainPatched ++ "</p>" :=
  ⟨rfl, rfl, rfl⟩

/-! ## C5 — image locators on a concrete document -/

/-- C5: the two `<img>` tags and the single inline background yield
exactly three entries with locators `(img, 0, 0)`, `(img, 1, 0)`,
`(inline_style, 0, 0)` in that order, and replacing via the second
img's locator rewrites only that element's `src`. -/
theorem c5_image_locators (probe : Probe) (u : String) :
    extract_images probe docImages =
        [{ img_id := "IMG001", source := "img-tag", mime := "image/unknown", fmt := "?",
           width := none, height := none, bytes_data := none, hint := "a.png",
           locator := { kind := "img", a := 0, b := 0 } },
         { img_id := "IMG002", source := "img-tag", mime := "image/unknown", fmt := "?",
           width := none, height := none, bytes_data := none, hint := "b.png",
           locator := { kind := "img", a := 1, b := 0 } },
         { img_id := "IMG003", source := "background-image", mime := "image/unknown", fmt := "?",
           width := none, height := none, bytes_data := none, hint := "c.png",
           locator := { kind := "inline_style", a := 0, b := 0 } }] ∧
      replace_image_in_html docImages { kind := "img", a := 1, b := 0 } u =
        .ok (.elem "div" [] none none
          [.elem "img" [] none (some "a.png") [],
           .elem "img" [] none (some u) [],
           .elem "div" [] (some "background-image:url(c.png)") none []]) := by
  refine ⟨?_, rfl⟩
  show [imageFromUrl probe 1 "img-tag" "a.png" ⟨"img", 0, 0⟩,
        imageFromUrl probe 2 "img-tag" "b.png" ⟨"img", 1, 0⟩,
        imageFromUrl probe 3 "background-image" "c.png" ⟨"inline_style", 0, 0⟩] = _
  unfold imageFromUrl
  rfl

/-- C5 witness at a concrete probe and replacement url. -/
theorem c5_image_locators_witness :
    extract_images probeNone docImages =
        [{ img_id := "IMG001", source := "img-tag", mime := "image/unknown", fmt := "?",
           width := none, height := none, bytes_data := none, hint := "a.png",
           locator := { kind := "img", a := 0, b := 0 } },
         { img_id := "IMG002", source := "img-tag", mime := "image/unknown", fmt := "?",
           width := none, height := none, bytes_data := none, hint := "b.png",
           locator := { kind := "img", a := 1, b := 0 } },
         { img_id := "IMG003", source := "background-image", mime := "image/unknown", fmt := "?",
           width := none, height := none, bytes_data := none, hint := "c.png",
           locator := { kind := "inline_style", a := 0, b := 0 } }] ∧
      replace_image_in_html docImages { kind := "img", a := 1, b := 0 } "d.png" =
        .ok (.elem "div" [] none none
          [.elem "img" [] none (some "a.png") [],
           .elem "img" [] none (some "d.png") [],
           .elem "div" [] (some "background-image:url(c.png)") none []]) :=
  c5_image_locators probeNone "d.png"

end HtmlEditor

namespace HtmlEditor

/-! ## C6 — out-of-range image locators fail closed -/

/-- The url-occurrence list `replace_image_in_html` re-derives when an
inline-style locator's primary index selects the `i`-th styled
element. -/
def inlineUrls (d : Node) (i : Nat) : List String :=
  bgScan (styleVal ((styledOf d).getD i ([], .text "")).2)

/-- The url-occurrence list re-derived for the `i`-th `<style>` block. -/
def blockUrls (d : Node) (i : Nat) : List String :=
  bgScan (getText ((styleBlocksOf d).getD i ([], .text "")).2)

/-- Some index of the locator falls outside the candidate list
`replace_image_in_html` re-derives from this document for the locator's
kind. -/
def locatorOutOfRange (d : Node) (loc : ImageLocator) : Prop :=
  (loc.kind = "img" ∧ (loc.a < 0 ∨ ((imgsOf d).length : Int) ≤ loc.a)) ∨
    (loc.kind = "inline_style" ∧
      (loc.a < 0 ∨ ((styledOf d).length : Int) ≤ loc.a ∨ loc.b < 0 ∨
        ((inlineUrls d loc.a.toNat).length : Int) ≤ loc.b)) ∨
    (loc.kind = "style_tag" ∧
      (loc.a < 0 ∨ ((styleBlocksOf d).length : Int) ≤ loc.a ∨ loc.b < 0 ∨
        ((blockUrls d loc.a.toNat).length : Int) ≤ loc.b))

/-- C6: a locator whose primary or secondary index is out of the range
of the candidate list re-derived from the document makes
`replace_image_in_html` fail with an addressing error: no document is
returned and nothing is mutated. -/
theorem c6_replace_out_of_range_fails (d : Node) (loc : ImageLocator) (u : String)
    (h : locatorOutOfRange d loc) :
    ∃ msg, replace_image_in_html d loc u = Except.error msg := by
  rcases h with ⟨hk, hr⟩ | ⟨hk, hr⟩ | ⟨hk, hr⟩
  · refine ⟨"Не найден <img> для замены (индекс вне диапазона).", ?_⟩
    simp only [replace_image_in_html, hk]
    rw [if_pos (by decide : ("img" == "img") = true), if_pos hr]
  · by_cases hA : loc.a < 0 ∨ ((styledOf d).length : Int) ≤ loc.a
    · refine ⟨"Не найден tag со style=... (индекс вне диапазона).", ?_⟩
      simp only [replace_image_in_html, hk]
      rw [if_neg (by decide : ¬(("inline_style" == "img") = true)),
        if_pos (by decide : ("inline_style" == "inline_style") = true), if_pos hA]
    · have hB : loc.b < 0 ∨ ((inlineUrls d loc.a.toNat).length : Int) ≤ loc.b := by
        rcases hr with h1 | h1 | h1 | h1
        · exact absurd (Or.inl h1) hA
        · exact absurd (Or.inr h1) hA
        · exact Or.inl h1
        · exact Or.inr h1
      unfold inlineUrls at hB
      refine ⟨"Не найден background-image url(...) (индекс вне диапазона).", ?_⟩
      simp only [replace_image_in_html, hk]
      rw [if_neg (by decide : ¬(("inline_style" == "img") = true)),
        if_pos (by decide : ("inline_style" == "inline_style") = true),
        if_neg hA, if_pos hB]
  · by_cases hA : loc.a < 0 ∨ ((styleBlocksOf d).length : Int) ≤ loc.a
    · refine ⟨"Не найден <style> (индекс вне диапазона).", ?_⟩
      simp only [replace_image_in_html, hk]
      rw [if_neg (by decide : ¬(("style_tag" == "img") = true)),
        if_neg (by decide : ¬(("style_tag" == "inline_style") = true)),
        if_pos (by decide : ("style_tag" == "style_tag") = true), if_pos hA]
    · have hB : loc.b < 0 ∨ ((blockUrls d loc.a.toNat).length : Int) ≤ loc.b := by
        rcases hr with h1 | h1 | h1 | h1
        · exact absurd (Or.inl h1) hA
        · exact absurd (Or.inr h1) hA
        · exact Or.inl h1
        · exact Or.inr h1
      unfold blockUrls at hB
      refine ⟨"Не найден background-image url(...) в CSS (индекс вне диапазона).", ?_⟩
      simp only [replace_image_in_html, hk]
      rw [if_neg (by decide : ¬(("style_tag" == "img") = true)),
        if_neg (by decide : ¬(("style_tag" == "inline_style") = true)),
        if_pos (by decide : ("style_tag" == "style_tag") = true),
        if_neg hA, if_pos hB]

/-- C6 witness: a primary index past the `<img>` count errors out. -/
theorem c6_replace_out_of_range_witness :
    locatorOutOfRange docImages { kind := "img", a := 5, b := 0 } ∧
      ∃ msg, replace_image_in_html docImages { kind := "img", a := 5, b := 0 } "d.png" =
        Except.error msg :=
  ⟨Or.inl ⟨rfl, Or.inr (by decide)⟩,
    c6_replace_out_of_range_fails docImages { kind := "img", a := 5, b := 0 } "d.png"
      (Or.inl ⟨rfl, Or.inr (by decide)⟩)⟩

end HtmlEditor

namespace HtmlEditor

/-! ## C7 — out-of-range text edits are dropped silently -/

/-- A key of the text family is never of the status family. -/
theorem textKeyNotStatus (k : String) (h : pyStartsWith k "TEXT|" = true) :
    pyStartsWith k "STATUS|" = false := by
  unfold pyStartsWith at h ⊢
  cases hd : k.data with
  | nil =>
    rw [hd] at h
    exact absurd h (by decide)
  | cons c rest =>
    rw [hd] at h
    have h1 : ('T' :: "EXT|".data).isPrefixOf (c :: rest) = true := h
    have h2 : ('T' == c) = true := by
      cases hb : ('T' == c) with
      | true => rfl
      | false => rw [List.isPrefixOf, hb] at h1; simp at h1
    have hc : c = 'T' := by
      have := of_decide_eq_true h2
      exact this.symm
    subst hc
    rw [show ("STATUS|".data) = 'S' :: "TATUS|".data from rfl]
    rw [List.isPrefixOf]
    simp

/-- One out-of-range text edit leaves the edit-drop step inert. -/
theorem applyOneTextEdit_drop (d cur : Node) (k v t c o : String) (occ : Int)
    (hs : pyStartsWith k "TEXT|" = true)
    (hk : pySplit k '|' 3 = ["TEXT", t, c, o])
    (ho : pyInt o = some occ)
    (hr : ¬(1 ≤ occ ∧ occ ≤ ((patchGroup d t c).length : Int))) :
    applyOneTextEdit d cur (k, v) = cur := by
  unfold applyOneTextEdit
  simp only [hs, Bool.not_true, if_false, hk, ho]
  rw [if_neg hr]
  simp

/-- C7: a text-family edit whose occurrence index is out of range for
its (tagName, classAttributeString) group has no effect: removing it
from the edit set leaves `apply_text_edits` unchanged, so it is dropped
silently while every other edit is still applied (and the model's
patcher is a total function — nothing is raised). -/
theorem c7_stale_text_edit_dropped (d : Node) (e1 e2 : List (String × String))
    (k v t c o : String) (occ : Int)
    (hs : pyStartsWith k "TEXT|" = true)
    (hk : pySplit k '|' 3 = ["TEXT", t, c, o])
    (ho : pyInt o = some occ)
    (hr : ¬(1 ≤ occ ∧ occ ≤ ((patchGroup d t c).length : Int))) :
    apply_text_edits d (e1 ++ (k, v) :: e2) = apply_text_edits d (e1 ++ e2) := by
  have hstat : pyStartsWith k "STATUS|" = false := textKeyNotStatus k hs
  unfold apply_text_edits
  rw [List.foldl_append, List.foldl_append, List.foldl_cons,
    applyOneTextEdit_drop d _ k v t c o occ hs hk ho hr]
  have hcoll : collectStatusEdits (e1 ++ (k, v) :: e2) = collectStatusEdits (e1 ++ e2) := by
    unfold collectStatusEdits
    rw [List.foldl_append, List.foldl_append, List.foldl_cons]
    simp [hstat]
  rw [hcoll]

/-- C7 witness: a fifth occurrence of `p` with empty class does not
exist in `docScore`, so that edit is dropped and the document text
survives intact. -/
theorem c7_stale_text_edit_dropped_witness :
    apply_text_edits docScore ([] ++ ("TEXT|p||5", "New") :: []) =
      apply_text_edits docScore ([] ++ []) :=
  c7_stale_text_edit_dropped docScore [] [] "TEXT|p||5" "New" "p" "" "5" 5
    (by decide) (by decide) (by decide) (by decide)

end HtmlEditor

namespace HtmlEditor

/-! ## C8 — extraction degrades per item instead of failing -/

/-- C8: on `docDegrade`, extraction is total and yields one entry per
image: the undecodable base64 payload gives an entry whose byte payload
is empty (`some []`), the decodable payload whose bytes the probe
cannot interpret gives an entry with unknown width and height, and the
scan still reaches the third image. -/
theorem c8_extraction_degrades (probe : Probe) (hp : probe [0, 0, 0] = none) :
    extract_images probe docDegrade =
        [{ img_id := "IMG001", source := "img-tag", mime := "image/png", fmt := "png",
           width := none, height := none, bytes_data := some [], hint := "(data-url)",
           locator := { kind := "img", a := 0, b := 0 } },
         { img_id := "IMG002", source := "img-tag", mime := "image/png", fmt := "png",
           width := none, height := none, bytes_data := some [0, 0, 0], hint := "(data-url)",
           locator := { kind := "img", a := 1, b := 0 } },
         { img_id := "IMG003", source := "img-tag", mime := "image/unknown", fmt := "?",
           width := none, height := none, bytes_data := none, hint := "x.png",
           locator := { kind := "img", a := 2, b := 0 } }] := by
  have hd : detect_size_from_bytes probe [0, 0, 0] = (none, none) := by
    unfold detect_size_from_bytes
    rw [hp]
  have key : extract_images probe docDegrade =
      [imageFromUrl probe 1 "img-tag" "data:image/png;base64,AAA" ⟨"img", 0, 0⟩,
       imageFromUrl probe 2 "img-tag" "data:image/png;base64,AAAA" ⟨"img", 1, 0⟩,
       imageFromUrl probe 3 "img-tag" "x.png" ⟨"img", 2, 0⟩] := rfl
  have h1 : imageFromUrl probe 1 "img-tag" "data:image/png;base64,AAA" ⟨"img", 0, 0⟩ =
      { img_id := "IMG001", source := "img-tag", mime := "image/png", fmt := "png",
        width := none, height := none, bytes_data := some [], hint := "(data-url)",
        locator := { kind := "img", a := 0, b := 0 } } := rfl
  have h2 : imageFromUrl probe 2 "img-tag" "data:image/png;base64,AAAA" ⟨"img", 1, 0⟩ =
      { img_id := "IMG002", source := "img-tag", mime := "image/png", fmt := "png",
        width := none, height := none, bytes_data := some [0, 0, 0], hint := "(data-url)",
        locator := { kind := "img", a := 1, b := 0 } } := by
    have h2p : imageFromUrl probe 2 "img-tag" "data:image/png;base64,AAAA" ⟨"img", 1, 0⟩ =
        { img_id := "IMG002", source := "img-tag", mime := "image/png", fmt := "png",
          width := (detect_size_from_bytes probe [0, 0, 0]).1,
          height := (detect_size_from_bytes probe [0, 0, 0]).2,
          bytes_data := some [0, 0, 0], hint := "(data-url)",
          locator := { kind := "img", a := 1, b := 0 } } := rfl
    rw [h2p, hd]
  have h3 : imageFromUrl probe 3 "img-tag" "x.png" ⟨"img", 2, 0⟩ =
      { img_id := "IMG003", source := "img-tag", mime := "image/unknown", fmt := "?",
        width := none, height := none, bytes_data := none, hint := "x.png",
        locator := { kind := "img", a := 2, b := 0 } } := rfl
  rw [key, h1, h2, h3]

/-- C8 witness with a probe that always fails. -/
theorem c8_extraction_degrades_witness :
    extract_images probeNone docDegrade =
        [{ img_id := "IMG001", source := "img-tag", mime := "image/png", fmt := "png",
           width := none, height := none, bytes_data := some [], hint := "(data-url)",
           locator := { kind := "img", a := 0, b := 0 } },
         { img_id := "IMG002", source := "img-tag", mime := "image/png", fmt := "png",
           width := none, height := none, bytes_data := some [0, 0, 0], hint := "(data-url)",
           locator := { kind := "img", a := 1, b := 0 } },
         { img_id := "IMG003", source := "img-tag", mime := "image/unknown", fmt := "?",
           width := none, height := none, bytes_data := none, hint := "x.png",
           locator := { kind := "img", a := 2, b := 0 } }] :=
  c8_extraction_degrades probeNone rfl

end HtmlEditor

namespace HtmlEditor

/-! ## C10 — plain entries precede status entries -/

/-- Every descriptor the occurrence fold emits has the plain kind. -/
theorem assignOcc_kind (l : List (String × String × String)) (seen : List (String × String)) :
    ∀ r ∈ assignOcc l seen, r.kind = "text" := by
  induction l generalizing seen with
  | nil => intro r hr; simp [assignOcc] at hr
  | cons x rest ih =>
    intro r hr
    obtain ⟨t, c, s⟩ := x
    rw [assignOcc] at hr
    rcases List.mem_cons.mp hr with h | h
    · rw [h]
    · exact ih _ r h

/-- Every status-tail descriptor has the status kind. -/
theorem statusTail_kind (stexts : List (String × String)) :
    ∀ r ∈ STATUSES.filterMap (fun st => (lookupA stexts st).map (statusRef st)),
      r.kind = "status" := by
  intro r hr
  obtain ⟨st, _, hf⟩ := List.mem_filterMap.mp hr
  obtain ⟨t0, _, ht⟩ := Option.map_eq_some'.mp hf
  rw [← ht]
  rfl

/-- The status-tail keys, in order, form a sublist of the full
vocabulary key list. -/
theorem statusTail_keys_sublist (l : List String) (stexts : List (String × String)) :
    ((l.filterMap (fun st => (lookupA stexts st).map (statusRef st))).map
        (fun r => r.key)).Sublist
      (l.map (fun st => "STATUS|" ++ st)) := by
  induction l with
  | nil => simp
  | cons a t ih =>
    cases h : lookupA stexts a with
    | none =>
      simp only [List.filterMap_cons, h, Option.map_none', List.map_cons]
      exact ih.cons _
    | some t0 =>
      simp only [List.filterMap_cons, h, Option.map_some', List.map_cons, statusRef]
      exact ih.cons₂ _

/-- C10: every plain-kind entry precedes every status-kind entry in
`extract_text_nodes` output (the list is its plain part followed by its
status part), and the status keys appear in the fixed vocabulary order
Platinum, Gold, Silver, Bronze. -/
theorem c10_plain_before_status (d : Node) :
    (extract_text_nodes d).filter (fun n => n.kind == "text") ++
        (extract_text_nodes d).filter (fun n => n.kind == "status") =
        extract_text_nodes d ∧
      (((extract_text_nodes d).filter (fun n => n.kind == "status")).map
          (fun n => n.key)).Sublist
        (STATUSES.map (fun st => "STATUS|" ++ st)) := by
  have hsplit : extract_text_nodes d =
      assignOcc (textCandidates d) [] ++
        STATUSES.filterMap
          (fun st => (lookupA (extract_status_texts_from_p_status d) st).map (statusRef st)) :=
    rfl
  have hA := assignOcc_kind (textCandidates d) []
  have hB := statusTail_kind (extract_status_texts_from_p_status d)
  rw [hsplit]
  have hfA : (assignOcc (textCandidates d) []).filter (fun n => n.kind == "text") =
      assignOcc (textCandidates d) [] :=
    List.filter_eq_self.mpr (fun r hr => by simp [hA r hr])
  have hfA2 : (assignOcc (textCandidates d) []).filter (fun n => n.kind == "status") = [] :=
    List.filter_eq_nil_iff.mpr (fun r hr => by simp [hA r hr])
  have hfB : (STATUSES.filterMap
        (fun st => (lookupA (extract_status_texts_from_p_status d) st).map
          (statusRef st))).filter (fun n => n.kind == "status") =
      STATUSES.filterMap
        (fun st => (lookupA (extract_status_texts_from_p_status d) st).map (statusRef st)) :=
    List.filter_eq_self.mpr (fun r hr => by simp [hB r hr])
  have hfB2 : (STATUSES.filterMap
        (fun st => (lookupA (extract_status_texts_from_p_status d) st).map
          (statusRef st))).filter (fun n => n.kind == "text") = [] :=
    List.filter_eq_nil_iff.mpr (fun r hr => by simp [hB r hr])
  constructor
  · rw [List.filter_append, List.filter_append, hfA, hfA2, hfB, hfB2]
    simp
  · rw [List.filter_append, hfA2, hfB]
    simpa using statusTail_keys_sublist STATUSES (extract_status_texts_from_p_status d)

/-- C10 witness at the conditional-chain document. -/
theorem c10_plain_before_status_witness :
    (extract_text_nodes docStatus).filter (fun n => n.kind == "text") ++
        (extract_text_nodes docStatus).filter (fun n => n.kind == "status") =
        extract_text_nodes docStatus ∧
      (((extract_text_nodes docStatus).filter (fun n => n.kind == "status")).map
          (fun n => n.key)).Sublist
        (STATUSES.map (fun st => "STATUS|" ++ st)) :=
  c10_plain_before_status docStatus

end HtmlEditor

namespace HtmlEditor

/-! ## C1 — extraction traversal versus the patch index -/

/-- C1 counterexample: in `docSkip` the only candidate extraction sees
is the outer `Hello` paragraph (the `svg` subtree is removed first), so
its address is `TEXT|p||1`; the patch index is built without skip-tag
removal, lists the `svg`-internal `p` first, and the edit for
`TEXT|p||1` mutates that hidden node while the addressed `Hello` node
is left untouched. -/
theorem c1_skip_subtree_counterexample :
    extract_text_nodes docSkip =
        [{ key := "TEXT|p||1", display := "Hello", kind := "text", tag_name := "p",
           class_str := "", occurrence := 1, original_text := "Hello" }] ∧
      apply_text_edits docSkip [("TEXT|p||1", "Bye")] =
        .elem "div" [] none none
          [.elem "svg" [] none none [.elem "p" [] none none [.text "Bye"]],
           .elem "p" [] none none [.text "Hello"]] :=
  ⟨rfl, rfl⟩

mutual

/-- No element of the tree carries a skip-tag name. -/
def noSkipNode : Node → Bool
  | .text _ => true
  | .elem n _ _ _ ch => !(SKIP_TAGS.contains n) && noSkipList ch

/-- `noSkipNode` over a child list. -/
def noSkipList : List Node → Bool
  | [] => true
  | x :: xs => noSkipNode x && noSkipList xs

end

mutual

/-- Skip-removal is the identity on skip-free trees. -/
theorem decomposeSkip_id (d : Node) (h : noSkipNode d = true) : decomposeSkip d = d := by
  match d with
  | .text s => rfl
  | .elem n c st sr ch =>
    have h2 : noSkipList ch = true := by
      rw [noSkipNode, Bool.and_eq_true] at h
      exact h.2
    rw [decomposeSkip, decomposeSkipList_id ch h2]

/-- Skip-removal is the identity on skip-free child lists. -/
theorem decomposeSkipList_id (l : List Node) (h : noSkipList l = true) :
    decomposeSkipList l = l := by
  match l with
  | [] => rfl
  | x :: xs =>
    rw [noSkipList, Bool.and_eq_true] at h
    have hx : isSkipElem x = false := by
      match x with
      | .text s => rfl
      | .elem n2 c2 st2 sr2 ch2 =>
        have hh := h.1
        rw [noSkipNode, Bool.and_eq_true] at hh
        rw [isSkipElem]
        simpa using hh.1
    rw [decomposeSkipList, hx]
    rw [if_neg (by simp)]
    rw [decomposeSkip_id x h.1, decomposeSkipList_id xs h.2]

end

/-- A leaf candidate is not purely templated: it is not the case that
its normalised text is non-empty, carries a template marker, and strips
to nothing. -/
def notPureTemplated (n : Node) : Bool :=
  match leafText n with
  | none => true
  | some raw =>
    !((!(norm raw == "")) && has_jinja (norm raw) && (strip_jinja (norm raw) == ""))

/-- No candidate-tag element of the document is a purely templated
leaf: the condition quantifies only over the elements whose tag name is
in `CANDIDATE_TAGS`, the ones either traversal can enumerate. -/
def noPureTemplated (d : Node) : Bool :=
  ((elemsPre d).filter (fun pn => CANDIDATE_TAGS.contains (nameOf pn.2))).all
    (fun pn => notPureTemplated pn.2)

/-- On a non-purely-templated node the patch index's candidate test
agrees with extraction's. -/
theorem candidate_agree (n : Node) (h : notPureTemplated n = true) :
    patchCandidate n = (extCandidate n).isSome := by
  unfold notPureTemplated at h
  unfold patchCandidate extCandidate
  cases hl : leafText n with
  | none => rfl
  | some raw =>
    rw [hl] at h
    have hb : (!((!(norm raw == "")) && has_jinja (norm raw) &&
        (strip_jinja (norm raw) == ""))) = true := h
    by_cases h0 : raw = ""
    · simp [h0]
    · by_cases h1 : norm raw = ""
      · simp [h0, h1]
      · by_cases h2 : has_jinja (norm raw) = true
        · have h3 : ¬(strip_jinja (norm raw) = "") := by
            intro hc
            rw [h2] at hb
            simp [h1, hc] at hb
          simp [h0, h1, h2, h3]
        · simp [h0, h1, h2]

/-- C1 (amended): the index `apply_text_edits` rebuilds uses the same
candidate tags and the same leaf-only condition as extraction, but
applies neither the skip-subtree removal nor the pure-template
exclusion; on documents with no skip-tag elements and no purely
templated candidate leaf the two traversals enumerate exactly the same
nodes in the same order, so every extracted text address resolves under
patching to the node it was produced for. -/
theorem c1_index_agreement (d : Node) (h1 : noSkipNode d = true)
    (h2 : noPureTemplated d = true) :
    patchCandRefs d = extractCandRefs d := by
  have hroot : isSkipElem d = false := by
    match d with
    | .text _ => rfl
    | .elem n c st sr ch =>
      rw [noSkipNode, Bool.and_eq_true] at h1
      rw [isSkipElem]
      simpa using h1.1
  unfold extractCandRefs decomposeTop
  rw [hroot]
  rw [if_neg (by simp)]
  rw [decomposeSkip_id d h1]
  unfold patchCandRefs
  apply List.filter_congr
  intro pn hpn
  have hnp : notPureTemplated pn.2 = true := List.all_eq_true.mp h2 pn hpn
  exact candidate_agree pn.2 hnp

/-- A purely templated non-candidate leaf (`<td>{{x}}</td>`) beside an
ordinary candidate: no skip tag and no purely templated candidate
leaf, although a non-candidate leaf is purely templated. -/
def docTd : Node :=
  .elem "div" [] none none
    [.elem "td" [] none none [.text "\x7b\x7bx\x7d\x7d"],
     .elem "p" [] none none [.text "Hello"]]

/-- C1 witness: a skip-free document whose only purely templated leaf
sits under a non-candidate tag satisfies both hypotheses (the second
constrains candidate-tag elements only), and its patch index coincides
with extraction's traversal. -/
theorem c1_index_agreement_witness :
    noSkipNode docTd = true ∧ noPureTemplated docTd = true ∧
      patchCandRefs docTd = extractCandRefs docTd :=
  ⟨rfl, rfl, c1_index_agreement docTd rfl rfl⟩

end HtmlEditor

namespace HtmlEditor

/-! ## C9 — freshly extracted locators always resolve -/

/-- The locator stored in an entry is exactly the locator given to the
entry builder, whichever classification branch it takes. -/
theorem imageFromUrl_locator (probe : Probe) (c : Nat) (source u : String)
    (loc : ImageLocator) : (imageFromUrl probe c source u loc).locator = loc := by
  unfold imageFromUrl
  cases dataUrlMatch u <;> rfl

/-- Every entry of the `<img>` pass addresses a position of the scanned
list. -/
theorem imgPass_locator (probe : Probe) (l : List (Path × Node)) (idx c : Nat) :
    ∀ e ∈ (imgPass probe l idx c).1, ∃ j, j < l.length ∧
      e.locator = ⟨"img", ((idx + j : Nat) : Int), 0⟩ := by
  induction l generalizing idx c with
  | nil => intro e he; simp [imgPass] at he
  | cons pn rest ih =>
    intro e he
    simp only [imgPass] at he
    by_cases hsrc : pyStrip (srcVal pn.2) = ""
    · rw [if_pos hsrc] at he
      obtain ⟨j, hj, hl⟩ := ih (idx + 1) c e he
      refine ⟨j + 1, by simpa using Nat.succ_lt_succ hj, ?_⟩
      rw [hl]
      have : idx + 1 + j = idx + (j + 1) := by omega
      rw [this]
    · rw [if_neg hsrc] at he
      rcases List.mem_cons.mp he with h | h
      · refine ⟨0, by simp, ?_⟩
        rw [h, imageFromUrl_locator]
        simp
      · obtain ⟨j, hj, hl⟩ := ih (idx + 1) (c + 1) e h
        refine ⟨j + 1, by simpa using Nat.succ_lt_succ hj, ?_⟩
        rw [hl]
        have : idx + 1 + j = idx + (j + 1) := by omega
        rw [this]

/-- Every entry built from one style string addresses one of its url
occurrences. -/
theorem urlEntries_locator (probe : Probe) (kind : String) (ti : Nat)
    (urls : List String) (mi c : Nat) :
    ∀ e ∈ (urlEntries probe kind ti urls mi c).1, ∃ j, j < urls.length ∧
      e.locator = ⟨kind, (ti : Int), ((mi + j : Nat) : Int)⟩ := by
  induction urls generalizing mi c with
  | nil => intro e he; simp [urlEntries] at he
  | cons u rest ih =>
    intro e he
    simp only [urlEntries] at he
    by_cases hu : pyStrip u = ""
    · rw [if_pos hu] at he
      obtain ⟨j, hj, hl⟩ := ih (mi + 1) c e he
      refine ⟨j + 1, by simpa using Nat.succ_lt_succ hj, ?_⟩
      rw [hl]
      have : mi + 1 + j = mi + (j + 1) := by omega
      rw [this]
    · rw [if_neg hu] at he
      rcases List.mem_cons.mp he with h | h
      · refine ⟨0, by simp, ?_⟩
        rw [h, imageFromUrl_locator]
        simp
      · obtain ⟨j, hj, hl⟩ := ih (mi + 1) (c + 1) e h
        refine ⟨j + 1, by simpa using Nat.succ_lt_succ hj, ?_⟩
        rw [hl]
        have : mi + 1 + j = mi + (j + 1) := by omega
        rw [this]

/-- Every entry of the inline-style pass addresses a url occurrence of
the style string of one scanned element. -/
theorem inlinePass_locator (probe : Probe) (l : List (Path × Node)) (ti c : Nat) :
    ∀ e ∈ (inlinePass probe l ti c).1, ∃ j pn mi, l[j]? = some pn ∧
      mi < (bgScan (styleVal pn.2)).length ∧
      e.locator = ⟨"inline_style", ((ti + j : Nat) : Int), (mi : Int)⟩ := by
  induction l generalizing ti c with
  | nil => intro e he; simp [inlinePass] at he
  | cons pn rest ih =>
    intro e he
    simp only [inlinePass] at he
    rcases List.mem_append.mp he with h | h
    · obtain ⟨j0, hj0, hl⟩ :=
        urlEntries_locator probe "inline_style" ti (bgScan (styleVal pn.2)) 0 c e h
      refine ⟨0, pn, j0, by simp, hj0, ?_⟩
      rw [hl]
      norm_num
    · obtain ⟨j, pn2, mi, hg, hmi, hl⟩ := ih (ti + 1) _ e h
      refine ⟨j + 1, pn2, mi, by simpa using hg, hmi, ?_⟩
      rw [hl]
      have : ti + 1 + j = ti + (j + 1) := by omega
      rw [this]

/-- Every entry of the style-block pass addresses a url occurrence of
the flattened text of one scanned block. -/
theorem styleBlockPass_locator (probe : Probe) (l : List (Path × Node)) (si c : Nat) :
    ∀ e ∈ (styleBlockPass probe l si c).1, ∃ j pn mi, l[j]? = some pn ∧
      mi < (bgScan (getText pn.2)).length ∧
      e.locator = ⟨"style_tag", ((si + j : Nat) : Int), (mi : Int)⟩ := by
  induction l generalizing si c with
  | nil => intro e he; simp [styleBlockPass] at he
  | cons pn rest ih =>
    intro e he
    simp only [styleBlockPass] at he
    rcases List.mem_append.mp he with h | h
    · obtain ⟨j0, hj0, hl⟩ :=
        urlEntries_locator probe "style_tag" si (bgScan (getText pn.2)) 0 c e h
      refine ⟨0, pn, j0, by simp, hj0, ?_⟩
      rw [hl]
      norm_num
    · obtain ⟨j, pn2, mi, hg, hmi, hl⟩ := ih (si + 1) _ e h
      refine ⟨j + 1, pn2, mi, by simpa using hg, hmi, ?_⟩
      rw [hl]
      have : si + 1 + j = si + (j + 1) := by omega
      rw [this]

end HtmlEditor

namespace HtmlEditor

/-- An in-range img locator succeeds. -/
theorem replace_img_ok (d : Node) (u : String) (j : Nat)
    (hj : j < (imgsOf d).length) :
    ∃ r, replace_image_in_html d ⟨"img", (j : Int), 0⟩ u = Except.ok r := by
  simp only [replace_image_in_html]
  rw [if_pos (by decide : ("img" == "img") = true)]
  rw [if_neg (by omega : ¬((j : Int) < 0 ∨ ((imgsOf d).length : Int) ≤ (j : Int)))]
  exact ⟨_, rfl⟩

/-- An in-range inline-style locator succeeds. -/
theorem replace_inline_ok (d : Node) (u : String) (j : Nat) (pn : Path × Node) (mi : Nat)
    (hg : (styledOf d)[j]? = some pn)
    (hmi : mi < (bgScan (styleVal pn.2)).length) :
    ∃ r, replace_image_in_html d ⟨"inline_style", (j : Int), (mi : Int)⟩ u = Except.ok r := by
  have hj : j < (styledOf d).length := by
    rw [List.getElem?_eq_some] at hg
    exact hg.1
  have hpn : (styledOf d).getD ((j : Int)).toNat ([], Node.text "") = pn := by
    simp [List.getD_eq_getElem?_getD, hg]
  simp only [replace_image_in_html]
  rw [if_neg (by decide : ¬(("inline_style" == "img") = true)),
    if_pos (by decide : ("inline_style" == "inline_style") = true)]
  rw [if_neg (by omega : ¬((j : Int) < 0 ∨ ((styledOf d).length : Int) ≤ (j : Int)))]
  rw [hpn]
  rw [if_neg (by omega :
    ¬((mi : Int) < 0 ∨ ((bgScan (styleVal pn.2)).length : Int) ≤ (mi : Int)))]
  exact ⟨_, rfl⟩

/-- An in-range style-block locator succeeds. -/
theorem replace_styleblock_ok (d : Node) (u : String) (j : Nat) (pn : Path × Node) (mi : Nat)
    (hg : (styleBlocksOf d)[j]? = some pn)
    (hmi : mi < (bgScan (getText pn.2)).length) :
    ∃ r, replace_image_in_html d ⟨"style_tag", (j : Int), (mi : Int)⟩ u = Except.ok r := by
  have hj : j < (styleBlocksOf d).length := by
    rw [List.getElem?_eq_some] at hg
    exact hg.1
  have hpn : (styleBlocksOf d).getD ((j : Int)).toNat ([], Node.text "") = pn := by
    simp [List.getD_eq_getElem?_getD, hg]
  simp only [replace_image_in_html]
  rw [if_neg (by decide : ¬(("style_tag" == "img") = true)),
    if_neg (by decide : ¬(("style_tag" == "inline_style") = true)),
    if_pos (by decide : ("style_tag" == "style_tag") = true)]
  rw [if_neg (by omega : ¬((j : Int) < 0 ∨ ((styleBlocksOf d).length : Int) ≤ (j : Int)))]
  rw [hpn]
  rw [if_neg (by omega :
    ¬((mi : Int) < 0 ∨ ((bgScan (getText pn.2)).length : Int) ≤ (mi : Int)))]
  exact ⟨_, rfl⟩

/-- C9: every entry `extract_images` returns carries a locator that
passes every range check of `replace_image_in_html` on the same
document — its kind is known, its primary index lies inside the
re-derived candidate list, its secondary index lies inside the
re-derived url list — so replacement succeeds and no addressing-error
branch is reachable for a freshly extracted locator. -/
theorem c9_fresh_locator_resolves (probe : Probe) (d : Node) (u : String) (e : ImageEntry)
    (he : e ∈ extract_images probe d) :
    ∃ r, replace_image_in_html d e.locator u = Except.ok r := by
  simp only [extract_images] at he
  rcases List.mem_append.mp he with h12 | h3
  · rcases List.mem_append.mp h12 with h1 | h2
    · obtain ⟨j, hj, hl⟩ := imgPass_locator probe (imgsOf d) 0 0 e h1
      rw [hl]
      have hz : 0 + j = j := by omega
      rw [hz]
      exact replace_img_ok d u j hj
    · obtain ⟨j, pn, mi, hg, hmi, hl⟩ := inlinePass_locator probe (styledOf d) 0 _ e h2
      rw [hl]
      have hz : 0 + j = j := by omega
      rw [hz]
      exact replace_inline_ok d u j pn mi hg hmi
  · obtain ⟨j, pn, mi, hg, hmi, hl⟩ := styleBlockPass_locator probe (styleBlocksOf d) 0 _ e h3
    rw [hl]
    have hz : 0 + j = j := by omega
    rw [hz]
    exact replace_styleblock_ok d u j pn mi hg hmi

/-- The first entry extracted from `docImages`. -/
def entryA : ImageEntry :=
  { img_id := "IMG001", source := "img-tag", mime := "image/unknown", fmt := "?",
    width := none, height := none, bytes_data := none, hint := "a.png",
    locator := { kind := "img", a := 0, b := 0 } }

/-- C9 witness: the first freshly extracted entry of `docImages`
resolves. -/
theorem c9_fresh_locator_resolves_witness :
    entryA ∈ extract_images probeNone docImages ∧
      ∃ r, replace_image_in_html docImages entryA.locator "d.png" = Except.ok r :=
  ⟨by decide, c9_fresh_locator_resolves probeNone docImages "d.png" entryA (by decide)⟩

end HtmlEditor
